import Mathlib

/-!
Verification of the balance settlement / payment reconciliation engine of the
PD back-office ledger (`app/services/balance_service.py`, with the payable
computation helper from `app/services/payment_services.py` and the table keys
from `database_setup.py`).

Monetary values are Python `Decimal`s, embedded as `ℚ` (all operations used by
the engine — `+`, `-`, `min`, comparisons — are exact on `Decimal`).
Statuses are the integer constants of `BalanceService`.  The three persisted
tables (`pd_balance_details`, `pd_payment_receipts`, `pd_receipt_settlements`)
are embedded as lists of rows; `id` is a primary key and
`(receipt_id, balance_id)` carries the unique key `uk_receipt_balance`.
-/

namespace PD

/-- A row of `pd_balance_details` (an obligation). -/
structure BalanceDetail where
  id : Nat
  driver_name : String
  driver_phone : String
  payable_amount : ℚ
  paid_amount : ℚ
  balance_amount : ℚ
  payment_status : Nat
  created_at : Nat
deriving DecidableEq

/-- A row of `pd_payment_receipts` (only the columns the settlement engine reads). -/
structure PaymentReceipt where
  id : Nat
  amount : ℚ
  ocr_status : Nat
deriving DecidableEq

/-- A row of `pd_receipt_settlements` (a settlement link). -/
structure SettlementLink where
  receipt_id : Nat
  balance_id : Nat
  settled_amount : ℚ
deriving DecidableEq

/-- The persisted state the settlement engine touches. -/
structure LedgerState where
  balances : List BalanceDetail
  receipts : List PaymentReceipt
  links : List SettlementLink
deriving DecidableEq

/-- `BalanceService.OCR_STATUS_PENDING` (待确认, PENDING_CONFIRMATION). -/
def OCR_STATUS_PENDING : Nat := 0

/-- `BalanceService.OCR_STATUS_CONFIRMED` (已确认, CONFIRMED). -/
def OCR_STATUS_CONFIRMED : Nat := 1

/-- `BalanceService.OCR_STATUS_VERIFIED` (已核销, the receipt is SETTLED). -/
def OCR_STATUS_VERIFIED : Nat := 2

/-- `BalanceService.PAY_STATUS_PENDING` (待支付). -/
def PAY_STATUS_PENDING : Nat := 0

/-- `BalanceService.PAY_STATUS_PARTIAL` (部分支付). -/
def PAY_STATUS_PARTIAL : Nat := 1

/-- `BalanceService.PAY_STATUS_SETTLED` (已结清). -/
def PAY_STATUS_SETTLED : Nat := 2

/-- `SELECT ... FROM pd_balance_details WHERE id = %s` (id is the primary key). -/
def findBalanceRow : List BalanceDetail → Nat → Option BalanceDetail
  | [], _ => none
  | b :: rest, bid => if b.id = bid then some b else findBalanceRow rest bid

/-- `SELECT ... FROM pd_payment_receipts WHERE id = %s`. -/
def findReceiptRow : List PaymentReceipt → Nat → Option PaymentReceipt
  | [], _ => none
  | r :: rest, rid => if r.id = rid then some r else findReceiptRow rest rid

def findBalance (st : LedgerState) (bid : Nat) : Option BalanceDetail :=
  findBalanceRow st.balances bid

def findReceipt (st : LedgerState) (rid : Nat) : Option PaymentReceipt :=
  findReceiptRow st.receipts rid

/-- `UPDATE pd_balance_details SET paid_amount, balance_amount, payment_status WHERE id = %s`. -/
def updateBalanceRows (bid : Nat) (newPaid newBalance : ℚ) (newStatus : Nat) :
    List BalanceDetail → List BalanceDetail
  | [] => []
  | b :: rest =>
      (if b.id = bid then
        { b with paid_amount := newPaid, balance_amount := newBalance, payment_status := newStatus }
      else b) :: updateBalanceRows bid newPaid newBalance newStatus rest

/-- `UPDATE pd_balance_details SET balance_amount, payment_status WHERE id = %s`
    (the write of `recalculate_balance`, which does not touch `paid_amount`). -/
def recalcRows (bid : Nat) (newBalance : ℚ) (newStatus : Nat) :
    List BalanceDetail → List BalanceDetail
  | [] => []
  | b :: rest =>
      (if b.id = bid then { b with balance_amount := newBalance, payment_status := newStatus }
      else b) :: recalcRows bid newBalance newStatus rest

/-- `UPDATE pd_payment_receipts SET ocr_status = %s WHERE id = %s`. -/
def setReceiptRows (rid newStatus : Nat) : List PaymentReceipt → List PaymentReceipt
  | [] => []
  | r :: rest =>
      (if r.id = rid then { r with ocr_status := newStatus } else r) :: setReceiptRows rid newStatus rest

/-- Whether a link with key `(receipt_id, balance_id)` already exists
    (the duplicate test of `uk_receipt_balance`). -/
def hasLink (rid bid : Nat) : List SettlementLink → Bool
  | [] => false
  | l :: rest => if l.receipt_id = rid ∧ l.balance_id = bid then true else hasLink rid bid rest

/-- The `ON DUPLICATE KEY UPDATE settled_amount = %s` branch: the existing row
    for the pair keeps its identity, its amount is replaced. -/
def replaceLink (rid bid : Nat) (amt : ℚ) : List SettlementLink → List SettlementLink
  | [] => []
  | l :: rest =>
      (if l.receipt_id = rid ∧ l.balance_id = bid then { l with settled_amount := amt } else l)
        :: replaceLink rid bid amt rest

/-- `INSERT INTO pd_receipt_settlements ... ON DUPLICATE KEY UPDATE settled_amount = %s`,
    keyed by `uk_receipt_balance (receipt_id, balance_id)`. -/
def upsertLink (rid bid : Nat) (amt : ℚ) (links : List SettlementLink) : List SettlementLink :=
  if hasLink rid bid links then replaceLink rid bid amt links else links ++ [⟨rid, bid, amt⟩]

/-- Sum of `settled_amount` over all links referencing obligation `bid`. -/
def linkSum (bid : Nat) : List SettlementLink → ℚ
  | [] => 0
  | l :: rest => (if l.balance_id = bid then l.settled_amount else 0) + linkSum bid rest

/-- Status derivation of `recalculate_balance` (paid ≤ 0 tested first):
    `if paid <= 0: PENDING elif paid >= payable: SETTLED else: PARTIAL`. -/
def recalcStatus (payable paid : ℚ) : Nat :=
  if paid ≤ 0 then PAY_STATUS_PENDING
  else if paid ≥ payable then PAY_STATUS_SETTLED
  else PAY_STATUS_PARTIAL

/-- Status derivation of `verify_payment` (new_paid ≥ payable tested first):
    `if new_paid >= payable: SETTLED elif new_paid > 0: PARTIAL else: PENDING`. -/
def verifyStatus (payable newPaid : ℚ) : Nat :=
  if newPaid ≥ payable then PAY_STATUS_SETTLED
  else if newPaid > 0 then PAY_STATUS_PARTIAL
  else PAY_STATUS_PENDING

/-- Status derivation of `batch_verify_by_payee` (no PENDING branch):
    `if new_paid >= payable: SETTLED else: PARTIAL`. -/
def batchStatus (payable newPaid : ℚ) : Nat :=
  if newPaid ≥ payable then PAY_STATUS_SETTLED else PAY_STATUS_PARTIAL

inductive RecalcResult
  | notFound
  | ok (payable paid balance : ℚ) (status : Nat)
deriving DecidableEq

/-- `BalanceService.recalculate_balance`: recompute `balance_amount` and
    `payment_status` of one obligation from its stored amounts. -/
def recalculate_balance (st : LedgerState) (bid : Nat) : LedgerState × RecalcResult :=
  match findBalance st bid with
  | none => (st, .notFound)
  | some b =>
      let balance := b.payable_amount - b.paid_amount
      let status := recalcStatus b.payable_amount b.paid_amount
      ({ st with balances := recalcRows bid balance status st.balances },
       .ok b.payable_amount b.paid_amount balance status)

/-- One entry of the `settled_items` list returned by the settlement calls. -/
structure SettledItem where
  balance_id : Nat
  settled_amount : ℚ
  status : Nat
deriving DecidableEq

inductive VerifyResult
  | receiptNotFound
  | alreadyVerified
  | ok (total_settled : ℚ) (receipt_status : Nat) (items : List SettledItem)
deriving DecidableEq

def VerifyResult.isOk : VerifyResult → Bool
  | .ok _ _ _ => true
  | _ => false

/-- The clamp of `verify_payment`: `if settle_amount > remaining: settle_amount = remaining`
    with `remaining = payable_amount - paid_amount`. -/
def verifySettle (b : BalanceDetail) (amt : ℚ) : ℚ :=
  if amt > b.payable_amount - b.paid_amount then b.payable_amount - b.paid_amount else amt

/-- The two writes for one pair of `verify_payment`: update the obligation row
    with `new_paid = paid + settle`, `new_balance = payable - new_paid` and the
    derived status, and upsert the settlement link with the clamped amount. -/
def verifyStep (st : LedgerState) (rid bid : Nat) (amt : ℚ) (b : BalanceDetail) : LedgerState :=
  { st with
    balances := updateBalanceRows bid (b.paid_amount + verifySettle b amt)
      (b.payable_amount - (b.paid_amount + verifySettle b amt))
      (verifyStatus b.payable_amount (b.paid_amount + verifySettle b amt)) st.balances,
    links := upsertLink rid bid (verifySettle b amt) st.links }

/-- The `for item in balance_items` loop of `verify_payment`: look the obligation
    up in the current state, clamp the requested amount, apply the writes,
    accumulate the total; a missing obligation is skipped silently. -/
def verifyLoop (rid : Nat) :
    LedgerState → ℚ → List SettledItem → List (Nat × ℚ) → LedgerState × ℚ × List SettledItem
  | st, total, its, [] => (st, total, its)
  | st, total, its, (bid, amt) :: rest =>
      match findBalance st bid with
      | none => verifyLoop rid st total its rest
      | some b =>
          verifyLoop rid (verifyStep st rid bid amt b) (total + verifySettle b amt)
            (its ++ [⟨bid, verifySettle b amt,
                     verifyStatus b.payable_amount (b.paid_amount + verifySettle b amt)⟩]) rest

/-- `BalanceService.verify_payment` (explicit settlement): fetch the receipt,
    reject when missing or already 已核销 (VERIFIED); process the pairs in order;
    finally promote the receipt to VERIFIED when the accumulated total reaches
    its face amount, else set it CONFIRMED. -/
def verify_payment (st : LedgerState) (rid : Nat) (items : List (Nat × ℚ)) :
    LedgerState × VerifyResult :=
  match findReceipt st rid with
  | none => (st, .receiptNotFound)
  | some r =>
      if r.ocr_status = OCR_STATUS_VERIFIED then (st, .alreadyVerified)
      else
        let out := verifyLoop rid st 0 [] items
        let newReceiptStatus :=
          if out.2.1 ≥ r.amount then OCR_STATUS_VERIFIED else OCR_STATUS_CONFIRMED
        ({ out.1 with receipts := setReceiptRows rid newReceiptStatus out.1.receipts },
         .ok out.2.1 newReceiptStatus out.2.2)

/-- Ordering used by `ORDER BY created_at ASC`. -/
def createdLe (a b : BalanceDetail) : Prop := a.created_at ≤ b.created_at

instance : DecidableRel createdLe :=
  fun a b => inferInstanceAs (Decidable (a.created_at ≤ b.created_at))

instance : IsTotal BalanceDetail createdLe := ⟨fun a b => Nat.le_total a.created_at b.created_at⟩

instance : IsTrans BalanceDetail createdLe := ⟨fun _ _ _ h h2 => Nat.le_trans h h2⟩

def phoneMatches (phone : Option String) (b : BalanceDetail) : Bool :=
  match phone with
  | none => true
  | some p => if b.driver_phone = p then true else false

/-- `WHERE driver_name = %s AND payment_status IN (0, 1) [AND driver_phone = %s]`. -/
def outstandingFor (payee : String) (phone : Option String) (b : BalanceDetail) : Bool :=
  (if b.driver_name = payee then true else false)
    && (if b.payment_status = PAY_STATUS_PENDING ∨ b.payment_status = PAY_STATUS_PARTIAL
        then true else false)
    && phoneMatches phone b

/-- The candidate query of `batch_verify_by_payee`:
    outstanding obligations of the payee, `ORDER BY created_at ASC`. -/
def batchCandidates (st : LedgerState) (payee : String) (phone : Option String) :
    List BalanceDetail :=
  List.insertionSort createdLe (st.balances.filter (outstandingFor payee phone))

inductive BatchResult
  | receiptNotFound
  | alreadyVerified
  | noOutstanding
  | ok (total_settled remaining_unused : ℚ) (receipt_status : Nat) (items : List SettledItem)
deriving DecidableEq

def BatchResult.items : BatchResult → List SettledItem
  | .ok _ _ _ its => its
  | _ => []

def BatchResult.isOk : BatchResult → Bool
  | .ok _ _ _ _ => true
  | _ => false

/-- The two writes for one candidate of `batch_verify_by_payee`: update the
    obligation row from the prefetched values `b` with `new_paid = paid + settle`
    and upsert the settlement link with the allocated amount. -/
def batchStep (st : LedgerState) (rid : Nat) (b : BalanceDetail) (settle : ℚ) : LedgerState :=
  { st with
    balances := updateBalanceRows b.id (b.paid_amount + settle)
      (b.payable_amount - (b.paid_amount + settle))
      (batchStatus b.payable_amount (b.paid_amount + settle)) st.balances,
    links := upsertLink rid b.id settle st.links }

/-- The allocation loop of `batch_verify_by_payee` over the prefetched candidate
    rows: stop when the remaining receipt value is ≤ 0, else allocate
    `min(balance_amount, remaining)`, apply the writes, and decrement the
    remaining value. -/
def batchAlloc (rid : Nat) :
    LedgerState → ℚ → List SettledItem → List BalanceDetail → LedgerState × ℚ × List SettledItem
  | st, rem, its, [] => (st, rem, its)
  | st, rem, its, b :: rest =>
      if rem ≤ 0 then (st, rem, its)
      else
        batchAlloc rid (batchStep st rid b (min b.balance_amount rem))
          (rem - min b.balance_amount rem)
          (its ++ [⟨b.id, min b.balance_amount rem,
                   batchStatus b.payable_amount (b.paid_amount + min b.balance_amount rem)⟩]) rest

/-- `BalanceService.batch_verify_by_payee` (automatic settlement): fetch the
    receipt, reject when missing or VERIFIED, reject when the payee has no
    outstanding obligations, else walk the candidates oldest-first and finally
    promote the receipt to VERIFIED when its value was fully consumed. -/
def batch_verify_by_payee (st : LedgerState) (payee : String) (rid : Nat)
    (phone : Option String) : LedgerState × BatchResult :=
  match findReceipt st rid with
  | none => (st, .receiptNotFound)
  | some r =>
      if r.ocr_status = OCR_STATUS_VERIFIED then (st, .alreadyVerified)
      else
        let cands := batchCandidates st payee phone
        if cands = [] then (st, .noOutstanding)
        else
          let out := batchAlloc rid st r.amount [] cands
          let newReceiptStatus := if out.2.1 ≤ 0 then OCR_STATUS_VERIFIED else OCR_STATUS_CONFIRMED
          ({ out.1 with receipts := setReceiptRows rid newReceiptStatus out.1.receipts },
           .ok (r.amount - out.2.1) (if out.2.1 > 0 then out.2.1 else 0) newReceiptStatus out.2.2)

/-- `Decimal.quantize(Decimal('0.01'), rounding=ROUND_HALF_UP)`: round to the
    currency minor unit, ties away from zero. -/
def roundHalfUp2 (x : ℚ) : ℚ :=
  if 0 ≤ x then ((⌊x * 100 + 1/2⌋ : ℤ) : ℚ) / 100
  else -(((⌊(-x) * 100 + 1/2⌋ : ℤ) : ℚ) / 100)

/-- `payment_services.calculate_payment_amount`: `unit_price * net_weight`
    quantized half-up to two decimals. -/
def calculate_payment_amount (unit_price net_weight : ℚ) : ℚ :=
  roundHalfUp2 (unit_price * net_weight)

/-- The obligation row inserted by `generate_balance_details` for one confirmed
    weighbill: `payable = Decimal(str(net_weight)) * Decimal(str(unit_price))`
    (exact product, no quantization), `paid_amount = 0`,
    `balance_amount = payable`, `payment_status = PAY_STATUS_PENDING`. -/
def generate_balance_row (bid : Nat) (driver_name driver_phone : String)
    (net_weight unit_price : ℚ) (created : Nat) : BalanceDetail :=
  { id := bid, driver_name := driver_name, driver_phone := driver_phone,
    payable_amount := net_weight * unit_price,
    paid_amount := 0,
    balance_amount := net_weight * unit_price,
    payment_status := PAY_STATUS_PENDING,
    created_at := created }

/-- The numeric invariant of §8 of the spec for one obligation. -/
def BalanceInv (b : BalanceDetail) : Prop :=
  0 ≤ b.paid_amount ∧ b.paid_amount ≤ b.payable_amount
    ∧ b.balance_amount = b.payable_amount - b.paid_amount

/-- The numeric invariant for the whole ledger. -/
def LedgerInv (st : LedgerState) : Prop := ∀ b ∈ st.balances, BalanceInv b

/-- `id` is the primary key of `pd_balance_details`. -/
def UniqueIds (st : LedgerState) : Prop := (st.balances.map (fun b => b.id)).Nodup

/-- `paid_amount` equals the sum of `settled_amount` over all links referencing
    the obligation. -/
def PaidLinkInv (st : LedgerState) : Prop :=
  ∀ b ∈ st.balances, b.paid_amount = linkSum b.id st.links

/-! ### Helper lemmas about the row-level operations -/

lemma findBalanceRow_mem {l : List BalanceDetail} {bid : Nat} {b : BalanceDetail}
    (h : findBalanceRow l bid = some b) : b ∈ l := by
  induction l with
  | nil => simp [findBalanceRow] at h
  | cons c rest ih =>
      by_cases hc : c.id = bid
      · simp [findBalanceRow, hc] at h
        simp [h]
      · simp [findBalanceRow, hc] at h
        exact List.mem_cons_of_mem c (ih h)

lemma findBalanceRow_id {l : List BalanceDetail} {bid : Nat} {b : BalanceDetail}
    (h : findBalanceRow l bid = some b) : b.id = bid := by
  induction l with
  | nil => simp [findBalanceRow] at h
  | cons c rest ih =>
      by_cases hc : c.id = bid
      · simp [findBalanceRow, hc] at h
        rw [← h]; exact hc
      · simp [findBalanceRow, hc] at h
        exact ih h

lemma findReceiptRow_mem {l : List PaymentReceipt} {rid : Nat} {r : PaymentReceipt}
    (h : findReceiptRow l rid = some r) : r ∈ l := by
  induction l with
  | nil => simp [findReceiptRow] at h
  | cons c rest ih =>
      by_cases hc : c.id = rid
      · simp [findReceiptRow, hc] at h
        simp [h]
      · simp [findReceiptRow, hc] at h
        exact List.mem_cons_of_mem c (ih h)

lemma updateBalanceRows_map_id (bid : Nat) (p bal : ℚ) (s : Nat) (l : List BalanceDetail) :
    (updateBalanceRows bid p bal s l).map (fun b => b.id) = l.map (fun b => b.id) := by
  induction l with
  | nil => rfl
  | cons c rest ih =>
      by_cases hc : c.id = bid <;> simp [updateBalanceRows, hc, ih]

lemma mem_updateBalanceRows_cases {bid : Nat} {p bal : ℚ} {s : Nat} {l : List BalanceDetail}
    {c : BalanceDetail} (h : c ∈ updateBalanceRows bid p bal s l) :
    (c ∈ l ∧ c.id ≠ bid)
      ∨ ∃ b0 ∈ l, b0.id = bid
          ∧ c = { b0 with paid_amount := p, balance_amount := bal, payment_status := s } := by
  induction l with
  | nil => simp [updateBalanceRows] at h
  | cons d rest ih =>
      simp only [updateBalanceRows, List.mem_cons] at h
      rcases h with h | h
      · by_cases hd : d.id = bid
        · right
          exact ⟨d, List.mem_cons_self d rest, hd, by simpa [hd] using h⟩
        · left
          simp [hd] at h
          exact ⟨by simp [h], by rw [h]; exact hd⟩
      · rcases ih h with ⟨hm, hne⟩ | ⟨b0, hb0, hid, hc⟩
        · exact Or.inl ⟨List.mem_cons_of_mem d hm, hne⟩
        · exact Or.inr ⟨b0, List.mem_cons_of_mem d hb0, hid, hc⟩

lemma mem_updateBalanceRows_of_ne {bid : Nat} {p bal : ℚ} {s : Nat} {l : List BalanceDetail}
    {c : BalanceDetail} (hc : c ∈ l) (hne : c.id ≠ bid) :
    c ∈ updateBalanceRows bid p bal s l := by
  induction l with
  | nil => simp at hc
  | cons d rest ih =>
      rcases List.mem_cons.1 hc with h | h
      · subst h
        simp [updateBalanceRows, hne]
      · simp only [updateBalanceRows, List.mem_cons]
        exact Or.inr (ih h)

lemma recalcRows_map_id (bid : Nat) (bal : ℚ) (s : Nat) (l : List BalanceDetail) :
    (recalcRows bid bal s l).map (fun b => b.id) = l.map (fun b => b.id) := by
  induction l with
  | nil => rfl
  | cons c rest ih =>
      by_cases hc : c.id = bid <;> simp [recalcRows, hc, ih]

lemma mem_recalcRows_cases {bid : Nat} {bal : ℚ} {s : Nat} {l : List BalanceDetail}
    {c : BalanceDetail} (h : c ∈ recalcRows bid bal s l) :
    (c ∈ l ∧ c.id ≠ bid)
      ∨ ∃ b0 ∈ l, b0.id = bid ∧ c = { b0 with balance_amount := bal, payment_status := s } := by
  induction l with
  | nil => simp [recalcRows] at h
  | cons d rest ih =>
      simp only [recalcRows, List.mem_cons] at h
      rcases h with h | h
      · by_cases hd : d.id = bid
        · right
          exact ⟨d, List.mem_cons_self d rest, hd, by simpa [hd] using h⟩
        · left
          simp [hd] at h
          exact ⟨by simp [h], by rw [h]; exact hd⟩
      · rcases ih h with ⟨hm, hne⟩ | ⟨b0, hb0, hid, hc⟩
        · exact Or.inl ⟨List.mem_cons_of_mem d hm, hne⟩
        · exact Or.inr ⟨b0, List.mem_cons_of_mem d hb0, hid, hc⟩

lemma findReceiptRow_setReceiptRows (rid s : Nat) (l : List PaymentReceipt) :
    findReceiptRow (setReceiptRows rid s l) rid
      = (findReceiptRow l rid).map (fun r => { r with ocr_status := s }) := by
  induction l with
  | nil => rfl
  | cons r rest ih =>
      by_cases hr : r.id = rid
      · simp [setReceiptRows, findReceiptRow, hr]
      · simp [setReceiptRows, findReceiptRow, hr, ih]

/-! ### Helper lemmas about the link operations -/

lemma linkSum_append (bid : Nat) (l1 l2 : List SettlementLink) :
    linkSum bid (l1 ++ l2) = linkSum bid l1 + linkSum bid l2 := by
  induction l1 with
  | nil => simp [linkSum]
  | cons l rest ih => simp [linkSum, ih]; ring

lemma linkSum_singleton (bid rid bid2 : Nat) (amt : ℚ) :
    linkSum bid [⟨rid, bid2, amt⟩] = if bid2 = bid then amt else 0 := by
  by_cases h : bid2 = bid <;> simp [linkSum, h]

lemma hasLink_append (rid bid : Nat) (l1 l2 : List SettlementLink) :
    hasLink rid bid (l1 ++ l2) = (hasLink rid bid l1 || hasLink rid bid l2) := by
  induction l1 with
  | nil => simp [hasLink]
  | cons l rest ih =>
      by_cases h : l.receipt_id = rid ∧ l.balance_id = bid <;> simp [hasLink, h, ih]

lemma upsertLink_of_fresh {rid bid : Nat} {links : List SettlementLink}
    (h : hasLink rid bid links = false) (amt : ℚ) :
    upsertLink rid bid amt links = links ++ [⟨rid, bid, amt⟩] := by
  simp [upsertLink, h]

lemma hasLink_singleton (rid bid rid2 bid2 : Nat) (amt : ℚ) :
    hasLink rid bid [⟨rid2, bid2, amt⟩] = if rid2 = rid ∧ bid2 = bid then true else false := by
  by_cases h : rid2 = rid ∧ bid2 = bid <;> simp [hasLink, h]

/-! ### The settlement calls do not touch the other tables -/

lemma verifyLoop_receipts (rid : Nat) (items : List (Nat × ℚ)) :
    ∀ (st : LedgerState) (total : ℚ) (its : List SettledItem),
      (verifyLoop rid st total its items).1.receipts = st.receipts := by
  induction items with
  | nil => intro st total its; rfl
  | cons item rest ih =>
      intro st total its
      obtain ⟨bid, amt⟩ := item
      cases hfb : findBalance st bid with
      | none => simp [verifyLoop, hfb, ih]
      | some b => simp [verifyLoop, verifyStep, hfb, ih]

lemma batchAlloc_receipts (rid : Nat) (cands : List BalanceDetail) :
    ∀ (st : LedgerState) (rem : ℚ) (its : List SettledItem),
      (batchAlloc rid st rem its cands).1.receipts = st.receipts := by
  induction cands with
  | nil => intro st rem its; rfl
  | cons b rest ih =>
      intro st rem its
      by_cases hrem : rem ≤ 0
      · simp [batchAlloc, hrem]
      · simp [batchAlloc, batchStep, hrem, ih]

/-! ### Preservation of the numeric invariant -/

lemma verifySettle_nonneg {b : BalanceDetail} {amt : ℚ} (hb : BalanceInv b) (hamt : 0 ≤ amt) :
    0 ≤ verifySettle b amt := by
  obtain ⟨h0, hle, _⟩ := hb
  unfold verifySettle
  split
  · linarith
  · exact hamt

lemma verifySettle_le (b : BalanceDetail) (amt : ℚ) :
    verifySettle b amt ≤ b.payable_amount - b.paid_amount := by
  unfold verifySettle
  split
  · exact le_refl _
  · linarith [not_lt.1 (by assumption : ¬ amt > b.payable_amount - b.paid_amount)]

lemma verifyStep_ids {st : LedgerState} (rid bid : Nat) (amt : ℚ) (b : BalanceDetail)
    (hids : UniqueIds st) : UniqueIds (verifyStep st rid bid amt b) := by
  unfold UniqueIds verifyStep
  simpa [updateBalanceRows_map_id] using hids

lemma batchStep_ids {st : LedgerState} (rid : Nat) (b : BalanceDetail) (settle : ℚ)
    (hids : UniqueIds st) : UniqueIds (batchStep st rid b settle) := by
  unfold UniqueIds batchStep
  simpa [updateBalanceRows_map_id] using hids

lemma verifyStep_inv {st : LedgerState} {rid bid : Nat} {amt : ℚ} {b : BalanceDetail}
    (hinv : LedgerInv st) (hids : UniqueIds st)
    (hfb : findBalance st bid = some b) (hamt : 0 ≤ amt) :
    LedgerInv (verifyStep st rid bid amt b) := by
  intro c hc
  have hbmem : b ∈ st.balances := findBalanceRow_mem hfb
  have hbid : b.id = bid := findBalanceRow_id hfb
  simp only [verifyStep] at hc
  rcases mem_updateBalanceRows_cases hc with ⟨hm, _⟩ | ⟨b0, hb0, hid0, hceq⟩
  · exact hinv c hm
  · have hb0b : b0 = b := List.inj_on_of_nodup_map hids hb0 hbmem (by rw [hid0, hbid])
    subst hb0b
    obtain ⟨h0, hle, _⟩ := hinv b0 hb0
    have hs0 : 0 ≤ verifySettle b0 amt := verifySettle_nonneg (hinv b0 hb0) hamt
    have hsle : verifySettle b0 amt ≤ b0.payable_amount - b0.paid_amount := verifySettle_le b0 amt
    rw [hceq]
    refine ⟨by simp; linarith, by simp; linarith, by simp⟩

lemma batchStep_inv {st : LedgerState} {rid : Nat} {b : BalanceDetail} {settle : ℚ}
    (hinv : LedgerInv st) (hids : UniqueIds st) (hmem : b ∈ st.balances)
    (hs0 : 0 ≤ settle) (hsle : settle ≤ b.payable_amount - b.paid_amount) :
    LedgerInv (batchStep st rid b settle) := by
  intro c hc
  simp only [batchStep] at hc
  rcases mem_updateBalanceRows_cases hc with ⟨hm, _⟩ | ⟨b0, hb0, hid0, hceq⟩
  · exact hinv c hm
  · have hb0b : b0 = b := List.inj_on_of_nodup_map hids hb0 hmem hid0
    subst hb0b
    obtain ⟨h0, hle, _⟩ := hinv b0 hb0
    rw [hceq]
    refine ⟨by simp; linarith, by simp; linarith, by simp⟩

lemma verifyLoop_inv (rid : Nat) (items : List (Nat × ℚ)) :
    ∀ (st : LedgerState) (total : ℚ) (its : List SettledItem),
      LedgerInv st → UniqueIds st → (∀ p ∈ items, 0 ≤ p.2) →
      LedgerInv (verifyLoop rid st total its items).1
        ∧ UniqueIds (verifyLoop rid st total its items).1 := by
  induction items with
  | nil => intro st total its hinv hids _; exact ⟨hinv, hids⟩
  | cons item rest ih =>
      intro st total its hinv hids hamts
      obtain ⟨bid, amt⟩ := item
      have hamt : (0:ℚ) ≤ amt := hamts (bid, amt) (List.mem_cons_self _ _)
      have hrest : ∀ p ∈ rest, (0:ℚ) ≤ p.2 := fun p hp => hamts p (List.mem_cons_of_mem _ hp)
      cases hfb : findBalance st bid with
      | none =>
          simp only [verifyLoop, hfb]
          exact ih st total its hinv hids hrest
      | some b =>
          simp only [verifyLoop, hfb]
          exact ih _ _ _ (verifyStep_inv hinv hids hfb hamt) (verifyStep_ids rid bid amt b hids)
            hrest

lemma batchAlloc_inv (rid : Nat) (cands : List BalanceDetail) :
    ∀ (st : LedgerState) (rem : ℚ) (its : List SettledItem),
      LedgerInv st → UniqueIds st → (∀ c ∈ cands, c ∈ st.balances) →
      (cands.map (fun b => b.id)).Nodup →
      LedgerInv (batchAlloc rid st rem its cands).1
        ∧ UniqueIds (batchAlloc rid st rem its cands).1 := by
  induction cands with
  | nil => intro st rem its hinv hids _ _; exact ⟨hinv, hids⟩
  | cons b rest ih =>
      intro st rem its hinv hids hmem hnodup
      by_cases hrem : rem ≤ 0
      · simp only [batchAlloc, if_pos hrem]
        exact ⟨hinv, hids⟩
      · simp only [batchAlloc, if_neg hrem]
        have hbmem : b ∈ st.balances := hmem b (List.mem_cons_self _ _)
        obtain ⟨h0, hle, hbal⟩ := hinv b hbmem
        have hs0 : 0 ≤ min b.balance_amount rem := by
          apply le_min
          · rw [hbal]; linarith
          · linarith [not_le.1 hrem]
        have hsle : min b.balance_amount rem ≤ b.payable_amount - b.paid_amount := by
          calc min b.balance_amount rem ≤ b.balance_amount := min_le_left _ _
            _ = b.payable_amount - b.paid_amount := hbal
        have hnotin : b.id ∉ rest.map (fun c => c.id) := (List.nodup_cons.1 hnodup).1
        have hrestmem : ∀ c ∈ rest, c ∈ (batchStep st rid b (min b.balance_amount rem)).balances := by
          intro c hc
          have hne : c.id ≠ b.id := by
            intro heq
            exact hnotin (heq ▸ List.mem_map.2 ⟨c, hc, rfl⟩)
          have : c ∈ st.balances := hmem c (List.mem_cons_of_mem _ hc)
          simp only [batchStep]
          exact mem_updateBalanceRows_of_ne this hne
        exact ih _ _ _ (batchStep_inv hinv hids hbmem hs0 hsle)
          (batchStep_ids rid b _ hids) hrestmem (List.nodup_cons.1 hnodup).2

lemma recalculate_balance_inv {st : LedgerState} (bid : Nat)
    (hinv : LedgerInv st) (hids : UniqueIds st) :
    LedgerInv (recalculate_balance st bid).1 := by
  cases hfb : findBalance st bid with
  | none => simp only [recalculate_balance, hfb]; exact hinv
  | some b =>
      simp only [recalculate_balance, hfb]
      intro c hc
      have hbmem : b ∈ st.balances := findBalanceRow_mem hfb
      have hbid : b.id = bid := findBalanceRow_id hfb
      rcases mem_recalcRows_cases hc with ⟨hm, _⟩ | ⟨b0, hb0, hid0, hceq⟩
      · exact hinv c hm
      · have hb0b : b0 = b := List.inj_on_of_nodup_map hids hb0 hbmem (by rw [hid0, hbid])
        subst hb0b
        obtain ⟨h0, hle, _⟩ := hinv b0 hb0
        rw [hceq]
        exact ⟨by simpa using h0, by simpa using hle, by simp⟩

lemma verify_payment_inv {st : LedgerState} (rid : Nat) (items : List (Nat × ℚ))
    (hinv : LedgerInv st) (hids : UniqueIds st) (hamts : ∀ p ∈ items, (0:ℚ) ≤ p.2) :
    LedgerInv (verify_payment st rid items).1 := by
  cases hfr : findReceipt st rid with
  | none => simp only [verify_payment, hfr]; exact hinv
  | some r =>
      by_cases hstat : r.ocr_status = OCR_STATUS_VERIFIED
      · simp only [verify_payment, hfr, if_pos hstat]; exact hinv
      · simp only [verify_payment, hfr, if_neg hstat]
        intro c hc
        exact (verifyLoop_inv rid items st 0 [] hinv hids hamts).1 c hc

lemma batchCandidates_mem {st : LedgerState} {payee : String} {phone : Option String}
    {b : BalanceDetail} (hb : b ∈ batchCandidates st payee phone) : b ∈ st.balances := by
  have hperm := List.perm_insertionSort createdLe (st.balances.filter (outstandingFor payee phone))
  have : b ∈ st.balances.filter (outstandingFor payee phone) := hperm.mem_iff.1 hb
  exact List.mem_of_mem_filter this

lemma batchCandidates_nodup {st : LedgerState} (payee : String) (phone : Option String)
    (hids : UniqueIds st) :
    ((batchCandidates st payee phone).map (fun b => b.id)).Nodup := by
  have hperm := List.perm_insertionSort createdLe (st.balances.filter (outstandingFor payee phone))
  have hsub : List.Sublist ((st.balances.filter (outstandingFor payee phone)).map (fun b => b.id))
      (st.balances.map (fun b => b.id)) := (List.filter_sublist _).map _
  have hfil : ((st.balances.filter (outstandingFor payee phone)).map (fun b => b.id)).Nodup :=
    hids.sublist hsub
  exact ((hperm.map _).nodup_iff).2 hfil

lemma batch_verify_by_payee_inv {st : LedgerState} (payee : String) (rid : Nat)
    (phone : Option String) (hinv : LedgerInv st) (hids : UniqueIds st) :
    LedgerInv (batch_verify_by_payee st payee rid phone).1 := by
  cases hfr : findReceipt st rid with
  | none => simp only [batch_verify_by_payee, hfr]; exact hinv
  | some r =>
      by_cases hstat : r.ocr_status = OCR_STATUS_VERIFIED
      · simp only [batch_verify_by_payee, hfr, if_pos hstat]; exact hinv
      · by_cases hcand : batchCandidates st payee phone = []
        · simp only [batch_verify_by_payee, hfr, if_neg hstat, if_pos hcand]; exact hinv
        · simp only [batch_verify_by_payee, hfr, if_neg hstat, if_neg hcand]
          intro c hc
          exact (batchAlloc_inv rid (batchCandidates st payee phone) st r.amount [] hinv hids
            (fun c hcm => batchCandidates_mem hcm)
            (batchCandidates_nodup payee phone hids)).1 c hc

/-! ### Preservation of `paid_amount = Σ settled_amount` over fresh pairs -/

lemma hasLink_upsert_fresh {rid bid rid2 bid2 : Nat} {links : List SettlementLink} {amt : ℚ}
    (hfresh : hasLink rid bid links = false) (h2 : hasLink rid2 bid2 links = false)
    (hne : ¬ (rid = rid2 ∧ bid = bid2)) :
    hasLink rid2 bid2 (upsertLink rid bid amt links) = false := by
  rw [upsertLink_of_fresh hfresh, hasLink_append, h2, hasLink_singleton, if_neg hne]
  rfl

lemma verifyStep_paidlink {st : LedgerState} {rid bid : Nat} {amt : ℚ} {b : BalanceDetail}
    (hpl : PaidLinkInv st) (hids : UniqueIds st)
    (hfb : findBalance st bid = some b)
    (hfresh : hasLink rid bid st.links = false) :
    PaidLinkInv (verifyStep st rid bid amt b) := by
  intro c hc
  have hbmem : b ∈ st.balances := findBalanceRow_mem hfb
  have hbid : b.id = bid := findBalanceRow_id hfb
  have hlinks : (verifyStep st rid bid amt b).links
      = st.links ++ [⟨rid, bid, verifySettle b amt⟩] := by
    simp only [verifyStep]
    exact upsertLink_of_fresh hfresh _
  rw [hlinks, linkSum_append, linkSum_singleton]
  simp only [verifyStep] at hc
  rcases mem_updateBalanceRows_cases hc with ⟨hm, hne⟩ | ⟨b0, hb0, hid0, hceq⟩
  · rw [if_neg (fun h => hne h.symm), add_zero]
    exact hpl c hm
  · have hb0b : b0 = b := List.inj_on_of_nodup_map hids hb0 hbmem (by rw [hid0, hbid])
    subst hb0b
    rw [hceq]
    simp only
    rw [if_pos hid0.symm, hpl b0 hb0]

lemma batchStep_paidlink {st : LedgerState} {rid : Nat} {b : BalanceDetail} {settle : ℚ}
    (hpl : PaidLinkInv st) (hids : UniqueIds st) (hmem : b ∈ st.balances)
    (hfresh : hasLink rid b.id st.links = false) :
    PaidLinkInv (batchStep st rid b settle) := by
  intro c hc
  have hlinks : (batchStep st rid b settle).links = st.links ++ [⟨rid, b.id, settle⟩] := by
    simp only [batchStep]
    exact upsertLink_of_fresh hfresh _
  rw [hlinks, linkSum_append, linkSum_singleton]
  simp only [batchStep] at hc
  rcases mem_updateBalanceRows_cases hc with ⟨hm, hne⟩ | ⟨b0, hb0, hid0, hceq⟩
  · rw [if_neg (fun h => hne h.symm), add_zero]
    exact hpl c hm
  · have hb0b : b0 = b := List.inj_on_of_nodup_map hids hb0 hmem hid0
    subst hb0b
    rw [hceq]
    simp [hpl b0 hb0]

lemma verifyLoop_paidlink (rid : Nat) (items : List (Nat × ℚ)) :
    ∀ (st : LedgerState) (total : ℚ) (its : List SettledItem),
      PaidLinkInv st → UniqueIds st →
      (items.map Prod.fst).Nodup →
      (∀ p ∈ items, hasLink rid p.1 st.links = false) →
      PaidLinkInv (verifyLoop rid st total its items).1 := by
  induction items with
  | nil => intro st total its hpl _ _ _; exact hpl
  | cons item rest ih =>
      intro st total its hpl hids hnodup hfresh
      obtain ⟨bid, amt⟩ := item
      have hfreshb : hasLink rid bid st.links = false :=
        hfresh (bid, amt) (List.mem_cons_self _ _)
      have hnodup1 : (bid :: rest.map Prod.fst).Nodup := hnodup
      have hnd : bid ∉ rest.map Prod.fst ∧ (rest.map Prod.fst).Nodup :=
        List.nodup_cons.1 hnodup1
      cases hfb : findBalance st bid with
      | none =>
          simp only [verifyLoop, hfb]
          exact ih st total its hpl hids hnd.2
            (fun p hp => hfresh p (List.mem_cons_of_mem _ hp))
      | some b =>
          simp only [verifyLoop, hfb]
          apply ih _ _ _ (verifyStep_paidlink hpl hids hfb hfreshb)
            (verifyStep_ids rid bid amt b hids) hnd.2
          intro p hp
          have hne : p.1 ≠ bid := by
            intro heq
            exact hnd.1 (heq ▸ List.mem_map.2 ⟨p, hp, rfl⟩)
          have hfp : hasLink rid p.1 st.links = false := hfresh p (List.mem_cons_of_mem _ hp)
          simp only [verifyStep]
          exact hasLink_upsert_fresh hfreshb hfp (fun h => hne h.2.symm)

lemma batchAlloc_paidlink (rid : Nat) (cands : List BalanceDetail) :
    ∀ (st : LedgerState) (rem : ℚ) (its : List SettledItem),
      PaidLinkInv st → UniqueIds st → (∀ c ∈ cands, c ∈ st.balances) →
      (cands.map (fun b => b.id)).Nodup →
      (∀ c ∈ cands, hasLink rid c.id st.links = false) →
      PaidLinkInv (batchAlloc rid st rem its cands).1 := by
  induction cands with
  | nil => intro st rem its hpl _ _ _ _; exact hpl
  | cons b rest ih =>
      intro st rem its hpl hids hmem hnodup hfresh
      by_cases hrem : rem ≤ 0
      · simp only [batchAlloc, if_pos hrem]
        exact hpl
      · simp only [batchAlloc, if_neg hrem]
        have hbmem : b ∈ st.balances := hmem b (List.mem_cons_self _ _)
        have hfreshb : hasLink rid b.id st.links = false :=
          hfresh b (List.mem_cons_self _ _)
        have hnotin : b.id ∉ rest.map (fun c => c.id) := (List.nodup_cons.1 hnodup).1
        apply ih _ _ _ (batchStep_paidlink hpl hids hbmem hfreshb)
          (batchStep_ids rid b _ hids) ?memrest (List.nodup_cons.1 hnodup).2 ?freshrest
        case memrest =>
          intro c hc
          have hne : c.id ≠ b.id := by
            intro heq
            exact hnotin (heq ▸ List.mem_map.2 ⟨c, hc, rfl⟩)
          simp only [batchStep]
          exact mem_updateBalanceRows_of_ne (hmem c (List.mem_cons_of_mem _ hc)) hne
        case freshrest =>
          intro c hc
          have hne : c.id ≠ b.id := by
            intro heq
            exact hnotin (heq ▸ List.mem_map.2 ⟨c, hc, rfl⟩)
          have hfc : hasLink rid c.id st.links = false := hfresh c (List.mem_cons_of_mem _ hc)
          simp only [batchStep]
          exact hasLink_upsert_fresh hfreshb hfc (fun h => hne h.2.symm)

lemma verify_payment_paidlink {st : LedgerState} (rid : Nat) (items : List (Nat × ℚ))
    (hpl : PaidLinkInv st) (hids : UniqueIds st)
    (hnodup : (items.map Prod.fst).Nodup)
    (hfresh : ∀ p ∈ items, hasLink rid p.1 st.links = false) :
    PaidLinkInv (verify_payment st rid items).1 := by
  cases hfr : findReceipt st rid with
  | none => simp only [verify_payment, hfr]; exact hpl
  | some r =>
      by_cases hstat : r.ocr_status = OCR_STATUS_VERIFIED
      · simp only [verify_payment, hfr, if_pos hstat]; exact hpl
      · simp only [verify_payment, hfr, if_neg hstat]
        intro c hc
        exact verifyLoop_paidlink rid items st 0 [] hpl hids hnodup hfresh c hc

lemma batch_verify_by_payee_paidlink {st : LedgerState} (payee : String) (rid : Nat)
    (phone : Option String) (hpl : PaidLinkInv st) (hids : UniqueIds st)
    (hfresh : ∀ b ∈ st.balances, hasLink rid b.id st.links = false) :
    PaidLinkInv (batch_verify_by_payee st payee rid phone).1 := by
  cases hfr : findReceipt st rid with
  | none => simp only [batch_verify_by_payee, hfr]; exact hpl
  | some r =>
      by_cases hstat : r.ocr_status = OCR_STATUS_VERIFIED
      · simp only [batch_verify_by_payee, hfr, if_pos hstat]; exact hpl
      · by_cases hcand : batchCandidates st payee phone = []
        · simp only [batch_verify_by_payee, hfr, if_neg hstat, if_pos hcand]; exact hpl
        · simp only [batch_verify_by_payee, hfr, if_neg hstat, if_neg hcand]
          intro c hc
          exact batchAlloc_paidlink rid (batchCandidates st payee phone) st r.amount [] hpl hids
            (fun c hcm => batchCandidates_mem hcm)
            (batchCandidates_nodup payee phone hids)
            (fun c hcm => hfresh c (batchCandidates_mem hcm)) c hc

/-! ### Further link lemmas -/

lemma hasLink_eq_false_forall {rid bid : Nat} {links : List SettlementLink}
    (h : hasLink rid bid links = false) :
    ∀ l ∈ links, ¬ (l.receipt_id = rid ∧ l.balance_id = bid) := by
  induction links with
  | nil => intro l hl; simp at hl
  | cons x rest ih =>
      intro l hl
      by_cases hx : x.receipt_id = rid ∧ x.balance_id = bid
      · simp [hasLink, hx] at h
      · simp only [hasLink, if_neg hx] at h
        rcases List.mem_cons.1 hl with rfl | hmem
        · exact hx
        · exact ih h l hmem

lemma mem_replaceLink_cases {rid bid : Nat} {amt : ℚ} {links : List SettlementLink}
    {l : SettlementLink} (h : l ∈ replaceLink rid bid amt links) :
    (l ∈ links ∧ ¬ (l.receipt_id = rid ∧ l.balance_id = bid))
      ∨ ∃ l0 ∈ links, (l0.receipt_id = rid ∧ l0.balance_id = bid)
          ∧ l = { l0 with settled_amount := amt } := by
  induction links with
  | nil => simp [replaceLink] at h
  | cons x rest ih =>
      simp only [replaceLink, List.mem_cons] at h
      rcases h with h | h
      · by_cases hx : x.receipt_id = rid ∧ x.balance_id = bid
        · right
          exact ⟨x, List.mem_cons_self x rest, hx, by simpa [hx] using h⟩
        · left
          simp only [if_neg hx] at h
          exact ⟨by simp [h], by rw [h]; exact hx⟩
      · rcases ih h with ⟨hm, hne⟩ | ⟨l0, hl0, hk, hl⟩
        · exact Or.inl ⟨List.mem_cons_of_mem x hm, hne⟩
        · exact Or.inr ⟨l0, List.mem_cons_of_mem x hl0, hk, hl⟩

lemma hasLink_replaceLink (rid2 bid2 rid bid : Nat) (amt : ℚ) (links : List SettlementLink) :
    hasLink rid2 bid2 (replaceLink rid bid amt links) = hasLink rid2 bid2 links := by
  induction links with
  | nil => rfl
  | cons x rest ih =>
      by_cases hx : x.receipt_id = rid ∧ x.balance_id = bid
      · by_cases hx2 : x.receipt_id = rid2 ∧ x.balance_id = bid2
        · simp [replaceLink, hasLink, hx, hx2, ih]
        · simp [replaceLink, hasLink, hx, hx2, ih]
      · simp [replaceLink, hasLink, hx, ih]

lemma hasLink_upsert_self (rid bid : Nat) (amt : ℚ) (links : List SettlementLink) :
    hasLink rid bid (upsertLink rid bid amt links) = true := by
  by_cases h : hasLink rid bid links
  · rw [upsertLink, if_pos h, hasLink_replaceLink]
    exact h
  · rw [upsertLink, if_neg h, hasLink_append, hasLink_singleton,
      if_pos ⟨rfl, rfl⟩, Bool.or_true]

/-! ### Concrete fixtures -/

/-- Obligation: payable 100, nothing paid yet. -/
def obA : BalanceDetail :=
  { id := 1, driver_name := "zhang", driver_phone := "p1",
    payable_amount := 100, paid_amount := 0, balance_amount := 100,
    payment_status := PAY_STATUS_PENDING, created_at := 1 }

/-- Ledger with one open obligation (payable 100) and one CONFIRMED receipt of 100. -/
def stA : LedgerState :=
  { balances := [obA],
    receipts := [{ id := 1, amount := 100, ocr_status := OCR_STATUS_CONFIRMED }],
    links := [] }

/-- Obligation: payable 300, nothing paid yet. -/
def obB : BalanceDetail :=
  { id := 1, driver_name := "zhang", driver_phone := "p1",
    payable_amount := 300, paid_amount := 0, balance_amount := 300,
    payment_status := PAY_STATUS_PENDING, created_at := 1 }

/-- Ledger with one open obligation (payable 300) and one CONFIRMED receipt of 300. -/
def stB : LedgerState :=
  { balances := [obB],
    receipts := [{ id := 1, amount := 300, ocr_status := OCR_STATUS_CONFIRMED }],
    links := [] }

/-! ### C1 -/

/-- C1, counterexample: the claim as stated fails on the code.  Explicit
    settlement accepts a negative supplied amount (nothing validates it), and
    `paid_amount += settle_amount` then drives `paid_amount` to −50 < 0 on an
    obligation with payable 100, paid 0. -/
theorem c1_counterexample :
    ((verify_payment stA 1 [(1, -50)]).1.balances.map (fun b => b.paid_amount) = [(-50 : ℚ)])
      ∧ ¬ ((0:ℚ) ≤ (-50 : ℚ)) := by
  constructor
  · norm_num [verify_payment, findReceipt, findReceiptRow, verifyLoop, findBalance,
      findBalanceRow, verifyStep, verifySettle, verifyStatus, updateBalanceRows, upsertLink,
      hasLink, setReceiptRows, stA, obA, OCR_STATUS_VERIFIED, OCR_STATUS_CONFIRMED,
      PAY_STATUS_PENDING, PAY_STATUS_PARTIAL, PAY_STATUS_SETTLED]
  · norm_num

/-- C1, amended: for every obligation of a well-formed ledger (unique ids,
    invariant holding beforehand), `0 ≤ paid_amount ≤ payable_amount` and
    `balance_amount = payable_amount − paid_amount` still hold after
    recalculation, after automatic settlement by payee, and after explicit
    settlement provided every supplied settlement amount is non-negative
    (the code never validates this, see the counterexample). -/
theorem c1_settlement_invariant (st : LedgerState)
    (hinv : LedgerInv st) (hids : UniqueIds st) :
    (∀ bid, LedgerInv (recalculate_balance st bid).1)
    ∧ (∀ rid items, (∀ p ∈ items, (0:ℚ) ≤ p.2) → LedgerInv (verify_payment st rid items).1)
    ∧ (∀ payee rid phone, LedgerInv (batch_verify_by_payee st payee rid phone).1) :=
  ⟨fun bid => recalculate_balance_inv bid hinv hids,
   fun rid items hamts => verify_payment_inv rid items hinv hids hamts,
   fun payee rid phone => batch_verify_by_payee_inv payee rid phone hinv hids⟩

theorem c1_settlement_invariant_witness :
    LedgerInv stA ∧ UniqueIds stA
    ∧ ((∀ bid, LedgerInv (recalculate_balance stA bid).1)
       ∧ (∀ rid items, (∀ p ∈ items, (0:ℚ) ≤ p.2) → LedgerInv (verify_payment stA rid items).1)
       ∧ (∀ payee rid phone, LedgerInv (batch_verify_by_payee stA payee rid phone).1)) := by
  have h1 : LedgerInv stA := by
    intro b hb
    simp only [stA, List.mem_singleton] at hb
    subst hb
    refine ⟨by norm_num [obA], by norm_num [obA], by norm_num [obA]⟩
  have h2 : UniqueIds stA := by
    simp [UniqueIds, stA]
  exact ⟨h1, h2, c1_settlement_invariant stA h1 h2⟩

/-! ### C3 -/

/-- C3, counterexample: at `payable = paid = 0` the claim's cases overlap and
    fail on the code.  `paid ≥ payable` holds, yet `recalculate_balance`
    derives PENDING (its `paid ≤ 0` branch wins); and `paid ≤ 0` holds, yet
    `verify_payment` derives SETTLED (its `paid ≥ payable` branch wins) — so
    the two derivation sites also disagree with each other there. -/
theorem c3_counterexample :
    ((0:ℚ) ≥ 0 ∧ recalcStatus 0 0 ≠ PAY_STATUS_SETTLED)
    ∧ ((0:ℚ) ≤ 0 ∧ verifyStatus 0 0 ≠ PAY_STATUS_PENDING)
    ∧ recalcStatus 0 0 = PAY_STATUS_PENDING
    ∧ verifyStatus 0 0 = PAY_STATUS_SETTLED := by
  refine ⟨⟨le_refl 0, ?_⟩, ⟨le_refl 0, ?_⟩, ?_, ?_⟩ <;>
    norm_num [recalcStatus, verifyStatus, PAY_STATUS_PENDING, PAY_STATUS_SETTLED]

/-- C3, amended: for every pair with `payable_amount > 0` the derivation used
    by both `recalculate_balance` and `verify_payment` matches the spec cases
    exactly — PENDING when `paid ≤ 0`, PARTIAL when `0 < paid < payable`,
    SETTLED when `paid ≥ payable`; in particular `paid = payable` yields
    SETTLED, not PARTIAL.  (At `payable ≤ 0` the cases overlap and the two
    sites disagree, see the counterexample.) -/
theorem c3_status_derivation (payable paid : ℚ) (hpos : 0 < payable) :
    (paid ≤ 0 → recalcStatus payable paid = PAY_STATUS_PENDING
      ∧ verifyStatus payable paid = PAY_STATUS_PENDING)
    ∧ (0 < paid → paid < payable → recalcStatus payable paid = PAY_STATUS_PARTIAL
      ∧ verifyStatus payable paid = PAY_STATUS_PARTIAL)
    ∧ (paid ≥ payable → recalcStatus payable paid = PAY_STATUS_SETTLED
      ∧ verifyStatus payable paid = PAY_STATUS_SETTLED) := by
  refine ⟨fun h => ⟨?_, ?_⟩, fun h1 h2 => ⟨?_, ?_⟩, fun h => ⟨?_, ?_⟩⟩ <;>
    simp only [recalcStatus, verifyStatus] <;>
    split_ifs <;>
    first
    | rfl
    | (exfalso; linarith)

theorem c3_status_derivation_witness :
    (0:ℚ) < 5
    ∧ (((5:ℚ) ≤ 0 → recalcStatus 5 5 = PAY_STATUS_PENDING
        ∧ verifyStatus 5 5 = PAY_STATUS_PENDING)
      ∧ ((0:ℚ) < 5 → (5:ℚ) < 5 → recalcStatus 5 5 = PAY_STATUS_PARTIAL
        ∧ verifyStatus 5 5 = PAY_STATUS_PARTIAL)
      ∧ ((5:ℚ) ≥ 5 → recalcStatus 5 5 = PAY_STATUS_SETTLED
        ∧ verifyStatus 5 5 = PAY_STATUS_SETTLED)) :=
  ⟨by norm_num, c3_status_derivation 5 5 (by norm_num)⟩

/-! ### C9 -/

/-- C9, counterexample: the obligation generator does not round to the minor
    unit.  At `net_weight = 1.5`, `unit_price = 0.07` it inserts
    `payable = 0.105` (the exact Decimal product), while rounding half-up at
    the point of computation — done only by the separate receivables helper
    `calculate_payment_amount` — would give `0.11`. -/
theorem c9_counterexample :
    (generate_balance_row 10 "d" "p" (3/2) (7/100) 0).payable_amount = 21/200
    ∧ calculate_payment_amount (7/100) (3/2) = 11/100
    ∧ ((21:ℚ)/200) ≠ 11/100 := by
  refine ⟨?_, ?_, by norm_num⟩
  · norm_num [generate_balance_row]
  · norm_num [calculate_payment_amount, roundHalfUp2]

/-- C9, amended: obligation generation computes
    `payable_amount = net_weight × unit_price` in exact decimal arithmetic with
    no rounding to the currency minor unit (the half-up quantization exists only
    in the receivables helper `calculate_payment_amount` of
    `payment_services.py`), and inserts each created obligation with
    `paid_amount = 0`, `balance_amount = payable_amount`, status PENDING. -/
theorem c9_generation (bid : Nat) (name phone : String) (net_weight unit_price : ℚ)
    (created : Nat) :
    (generate_balance_row bid name phone net_weight unit_price created).payable_amount
        = net_weight * unit_price
    ∧ (generate_balance_row bid name phone net_weight unit_price created).paid_amount = 0
    ∧ (generate_balance_row bid name phone net_weight unit_price created).balance_amount
        = (generate_balance_row bid name phone net_weight unit_price created).payable_amount
    ∧ (generate_balance_row bid name phone net_weight unit_price created).payment_status
        = PAY_STATUS_PENDING :=
  ⟨rfl, rfl, rfl, rfl⟩

/-! ### C2 -/

/-- C2: in explicit settlement, when the requested amount exceeds the
    obligation's remaining balance `payable_amount − paid_amount`, exactly the
    remaining balance is applied and recorded — in the returned item, in the
    updated row (whose `paid_amount` then equals its `payable_amount`, never
    above it, with `balance_amount = 0`), and in the upserted settlement link. -/
theorem c2_clamping (st : LedgerState) (rid bid : Nat) (amt : ℚ)
    (r : PaymentReceipt) (b : BalanceDetail)
    (hr : findReceipt st rid = some r)
    (hstat : r.ocr_status ≠ OCR_STATUS_VERIFIED)
    (hb : findBalance st bid = some b)
    (hids : UniqueIds st)
    (hover : amt > b.payable_amount - b.paid_amount) :
    (∃ rs, (verify_payment st rid [(bid, amt)]).2
        = .ok (b.payable_amount - b.paid_amount) rs
            [⟨bid, b.payable_amount - b.paid_amount, PAY_STATUS_SETTLED⟩])
    ∧ (∀ c ∈ (verify_payment st rid [(bid, amt)]).1.balances, c.id = bid →
        c.paid_amount = c.payable_amount ∧ c.balance_amount = 0)
    ∧ (∀ l ∈ (verify_payment st rid [(bid, amt)]).1.links,
        l.receipt_id = rid → l.balance_id = bid →
          l.settled_amount = b.payable_amount - b.paid_amount)
    ∧ hasLink rid bid (verify_payment st rid [(bid, amt)]).1.links = true := by
  have hset : verifySettle b amt = b.payable_amount - b.paid_amount := by
    unfold verifySettle
    exact if_pos hover
  have hbmem : b ∈ st.balances := findBalanceRow_mem hb
  have hbid : b.id = bid := findBalanceRow_id hb
  have hstatus : verifyStatus b.payable_amount
      (b.paid_amount + (b.payable_amount - b.paid_amount)) = PAY_STATUS_SETTLED := by
    unfold verifyStatus
    rw [if_pos (by linarith)]
  refine ⟨?_, ?_, ?_, ?_⟩
  · simp only [verify_payment, hr, if_neg hstat, verifyLoop, hb, List.nil_append, hset,
      zero_add, hstatus]
    exact ⟨_, rfl⟩
  · intro c hc hcid
    simp only [verify_payment, hr, if_neg hstat, verifyLoop, hb, List.nil_append,
      verifyStep] at hc
    rcases mem_updateBalanceRows_cases hc with ⟨_, hne⟩ | ⟨b0, hb0, hid0, hceq⟩
    · exact absurd hcid hne
    · have hb0b : b0 = b := List.inj_on_of_nodup_map hids hb0 hbmem (hid0.trans hbid.symm)
      subst hb0b
      rw [hceq]
      refine ⟨?_, ?_⟩ <;> simp [hset]
  · intro l hl h1 h2
    simp only [verify_payment, hr, if_neg hstat, verifyLoop, hb, List.nil_append,
      verifyStep] at hl
    by_cases hhas : hasLink rid bid st.links = true
    · rw [upsertLink, if_pos hhas] at hl
      rcases mem_replaceLink_cases hl with ⟨_, hne⟩ | ⟨l0, _, _, hleq⟩
      · exact absurd ⟨h1, h2⟩ hne
      · rw [hleq]
        exact hset
    · have hhas2 : hasLink rid bid st.links = false := Bool.eq_false_iff.mpr hhas
      rw [upsertLink_of_fresh hhas2] at hl
      rcases List.mem_append.1 hl with hm | hm
      · exact absurd ⟨h1, h2⟩ (hasLink_eq_false_forall hhas2 l hm)
      · simp only [List.mem_singleton] at hm
        rw [hm]
        exact hset
  · simp only [verify_payment, hr, if_neg hstat, verifyLoop, hb, List.nil_append, verifyStep]
    exact hasLink_upsert_self rid bid _ st.links

theorem c2_clamping_witness :
    findReceipt stA 1 = some ⟨1, 100, OCR_STATUS_CONFIRMED⟩
    ∧ (⟨1, (100:ℚ), OCR_STATUS_CONFIRMED⟩ : PaymentReceipt).ocr_status ≠ OCR_STATUS_VERIFIED
    ∧ findBalance stA 1 = some obA
    ∧ UniqueIds stA
    ∧ (150:ℚ) > obA.payable_amount - obA.paid_amount
    ∧ ((∃ rs, (verify_payment stA 1 [(1, 150)]).2
          = .ok (obA.payable_amount - obA.paid_amount) rs
              [⟨1, obA.payable_amount - obA.paid_amount, PAY_STATUS_SETTLED⟩])
      ∧ (∀ c ∈ (verify_payment stA 1 [(1, 150)]).1.balances, c.id = 1 →
          c.paid_amount = c.payable_amount ∧ c.balance_amount = 0)
      ∧ (∀ l ∈ (verify_payment stA 1 [(1, 150)]).1.links,
          l.receipt_id = 1 → l.balance_id = 1 →
            l.settled_amount = obA.payable_amount - obA.paid_amount)
      ∧ hasLink 1 1 (verify_payment stA 1 [(1, 150)]).1.links = true) := by
  have h1 : findReceipt stA 1 = some ⟨1, 100, OCR_STATUS_CONFIRMED⟩ := rfl
  have h2 : (⟨1, (100:ℚ), OCR_STATUS_CONFIRMED⟩ : PaymentReceipt).ocr_status
      ≠ OCR_STATUS_VERIFIED := by decide
  have h3 : findBalance stA 1 = some obA := rfl
  have h4 : UniqueIds stA := by simp [UniqueIds, stA]
  have h5 : (150:ℚ) > obA.payable_amount - obA.paid_amount := by norm_num [obA]
  exact ⟨h1, h2, h3, h4, h5, c2_clamping stA 1 1 150 _ _ h1 h2 h3 h4 h5⟩

/-! ### C8 -/

/-- Obligation: payable 100, paid 20 already. -/
def obC : BalanceDetail :=
  { id := 1, driver_name := "zhang", driver_phone := "p1",
    payable_amount := 100, paid_amount := 20, balance_amount := 80,
    payment_status := PAY_STATUS_PARTIAL, created_at := 1 }

/-- Ledger with one partially paid obligation and one CONFIRMED receipt. -/
def stC : LedgerState :=
  { balances := [obC],
    receipts := [{ id := 1, amount := 100, ocr_status := OCR_STATUS_CONFIRMED }],
    links := [] }

/-- C8, counterexample: an explicit settlement supplying a negative amount is
    not rejected and does mutate state: on an obligation with paid 20 the call
    succeeds, `paid_amount` drops to 10, and a settlement link with
    `settled_amount = −10` is created. -/
theorem c8_counterexample :
    (verify_payment stC 1 [(1, -10)]).2.isOk = true
    ∧ ((verify_payment stC 1 [(1, -10)]).1.balances.map (fun b => b.paid_amount) = [(10:ℚ)])
    ∧ (verify_payment stC 1 [(1, -10)]).1.links = [⟨1, 1, -10⟩] := by
  refine ⟨?_, ?_, ?_⟩ <;>
    norm_num [verify_payment, findReceipt, findReceiptRow, verifyLoop, findBalance,
      findBalanceRow, verifyStep, verifySettle, verifyStatus, updateBalanceRows, upsertLink,
      hasLink, setReceiptRows, stC, obC, VerifyResult.isOk, OCR_STATUS_VERIFIED,
      OCR_STATUS_CONFIRMED, PAY_STATUS_PENDING, PAY_STATUS_PARTIAL, PAY_STATUS_SETTLED]

/-- C8, amended: a non-positive settlement amount is not rejected — neither the
    route model `SettlementItem` nor `verify_payment` validates positivity.
    The call succeeds and applies the amount as-is (it is below the clamp
    threshold): the obligation's `paid_amount` becomes `paid + amt` (decreasing
    when `amt < 0`), the amount is reported in the per-item results, and a
    settlement link with that amount is recorded. -/
theorem c8_nonpositive_applied (st : LedgerState) (rid bid : Nat) (amt : ℚ)
    (r : PaymentReceipt) (b : BalanceDetail)
    (hr : findReceipt st rid = some r)
    (hstat : r.ocr_status ≠ OCR_STATUS_VERIFIED)
    (hb : findBalance st bid = some b)
    (hamt : amt ≤ 0) (hrem : 0 ≤ b.payable_amount - b.paid_amount) :
    (verify_payment st rid [(bid, amt)]).2.isOk = true
    ∧ (∃ rs, (verify_payment st rid [(bid, amt)]).2
        = .ok amt rs [⟨bid, amt, verifyStatus b.payable_amount (b.paid_amount + amt)⟩])
    ∧ (∀ c ∈ (verify_payment st rid [(bid, amt)]).1.balances, c.id = bid →
        c.paid_amount = b.paid_amount + amt)
    ∧ hasLink rid bid (verify_payment st rid [(bid, amt)]).1.links = true := by
  have hset : verifySettle b amt = amt := by
    unfold verifySettle
    rw [if_neg (by linarith)]
  refine ⟨?_, ?_, ?_, ?_⟩
  · simp only [verify_payment, hr, if_neg hstat, verifyLoop, hb, List.nil_append]
    rfl
  · simp only [verify_payment, hr, if_neg hstat, verifyLoop, hb, List.nil_append, hset,
      zero_add]
    exact ⟨_, rfl⟩
  · intro c hc hcid
    simp only [verify_payment, hr, if_neg hstat, verifyLoop, hb, List.nil_append,
      verifyStep] at hc
    rcases mem_updateBalanceRows_cases hc with ⟨_, hne⟩ | ⟨b0, hb0, hid0, hceq⟩
    · exact absurd hcid hne
    · rw [hceq]
      simp [hset]
  · simp only [verify_payment, hr, if_neg hstat, verifyLoop, hb, List.nil_append, verifyStep]
    exact hasLink_upsert_self rid bid _ st.links

theorem c8_nonpositive_applied_witness :
    findReceipt stC 1 = some ⟨1, 100, OCR_STATUS_CONFIRMED⟩
    ∧ (⟨1, (100:ℚ), OCR_STATUS_CONFIRMED⟩ : PaymentReceipt).ocr_status ≠ OCR_STATUS_VERIFIED
    ∧ findBalance stC 1 = some obC
    ∧ ((-10:ℚ) ≤ 0)
    ∧ ((0:ℚ) ≤ obC.payable_amount - obC.paid_amount)
    ∧ ((verify_payment stC 1 [(1, -10)]).2.isOk = true
      ∧ (∃ rs, (verify_payment stC 1 [(1, -10)]).2
          = .ok (-10) rs [⟨1, -10, verifyStatus obC.payable_amount (obC.paid_amount + -10)⟩])
      ∧ (∀ c ∈ (verify_payment stC 1 [(1, -10)]).1.balances, c.id = 1 →
          c.paid_amount = obC.paid_amount + -10)
      ∧ hasLink 1 1 (verify_payment stC 1 [(1, -10)]).1.links = true) := by
  have h1 : findReceipt stC 1 = some ⟨1, 100, OCR_STATUS_CONFIRMED⟩ := rfl
  have h2 : (⟨1, (100:ℚ), OCR_STATUS_CONFIRMED⟩ : PaymentReceipt).ocr_status
      ≠ OCR_STATUS_VERIFIED := by decide
  have h3 : findBalance stC 1 = some obC := rfl
  have h4 : (-10:ℚ) ≤ 0 := by norm_num
  have h5 : (0:ℚ) ≤ obC.payable_amount - obC.paid_amount := by norm_num [obC]
  exact ⟨h1, h2, h3, h4, h5, c8_nonpositive_applied stC 1 1 (-10) _ _ h1 h2 h3 h4 h5⟩

/-! ### C10 -/

/-- C10: automatic allocation with a receipt whose stored face amount is ≤ 0
    and a payee having at least one outstanding obligation succeeds, allocates
    nothing (the loop breaks before its first candidate), creates no settlement
    links, leaves every obligation untouched, and promotes the receipt to
    VERIFIED (SETTLED) with `total_settled = 0` and `remaining_unused = 0`. -/
theorem c10_zero_receipt (st : LedgerState) (payee : String) (rid : Nat)
    (phone : Option String) (r : PaymentReceipt)
    (hr : findReceipt st rid = some r)
    (hstat : r.ocr_status ≠ OCR_STATUS_VERIFIED)
    (hamt : r.amount ≤ 0)
    (hcands : batchCandidates st payee phone ≠ []) :
    batch_verify_by_payee st payee rid phone
      = ({ st with receipts := setReceiptRows rid OCR_STATUS_VERIFIED st.receipts },
         .ok 0 0 OCR_STATUS_VERIFIED []) := by
  obtain ⟨c, rest, hc⟩ : ∃ c rest, batchCandidates st payee phone = c :: rest := by
    cases hx : batchCandidates st payee phone with
    | nil => exact absurd hx hcands
    | cons c rest => exact ⟨c, rest, rfl⟩
  simp only [batch_verify_by_payee, hr, if_neg hstat, hc]
  rw [if_neg (List.cons_ne_nil c rest)]
  simp only [batchAlloc, if_pos hamt]
  rw [sub_self, if_neg (not_lt.mpr hamt)]

/-- Ledger with one open obligation for payee "zhang" and a CONFIRMED receipt
    whose face amount is 0. -/
def stZ : LedgerState :=
  { balances := [obA],
    receipts := [{ id := 1, amount := 0, ocr_status := OCR_STATUS_CONFIRMED }],
    links := [] }

theorem c10_zero_receipt_witness :
    findReceipt stZ 1 = some ⟨1, 0, OCR_STATUS_CONFIRMED⟩
    ∧ (⟨1, (0:ℚ), OCR_STATUS_CONFIRMED⟩ : PaymentReceipt).ocr_status ≠ OCR_STATUS_VERIFIED
    ∧ (⟨1, (0:ℚ), OCR_STATUS_CONFIRMED⟩ : PaymentReceipt).amount ≤ 0
    ∧ batchCandidates stZ "zhang" none ≠ []
    ∧ batch_verify_by_payee stZ "zhang" 1 none
      = ({ stZ with receipts := setReceiptRows 1 OCR_STATUS_VERIFIED stZ.receipts },
         .ok 0 0 OCR_STATUS_VERIFIED []) := by
  have h1 : findReceipt stZ 1 = some ⟨1, 0, OCR_STATUS_CONFIRMED⟩ := rfl
  have h2 : (⟨1, (0:ℚ), OCR_STATUS_CONFIRMED⟩ : PaymentReceipt).ocr_status
      ≠ OCR_STATUS_VERIFIED := by decide
  have h3 : (⟨1, (0:ℚ), OCR_STATUS_CONFIRMED⟩ : PaymentReceipt).amount ≤ 0 := by norm_num
  have h4 : batchCandidates stZ "zhang" none ≠ [] := by
    norm_num [batchCandidates, outstandingFor, phoneMatches, List.insertionSort,
      List.orderedInsert, stZ, obA, PAY_STATUS_PENDING, PAY_STATUS_PARTIAL]
  exact ⟨h1, h2, h3, h4, c10_zero_receipt stZ "zhang" 1 none _ h1 h2 h3 h4⟩

/-! ### C7 -/

/-- C7: a settlement call — explicit or automatic — is rejected with the
    "receipt already settled" result exactly when the receipt's status is
    VERIFIED (已核销), and then the state is unchanged; for a receipt in any
    other status (including PENDING_CONFIRMATION = 0) the explicit call
    returns a success result, and neither call returns the already-settled
    rejection. -/
theorem c7_already_settled (st : LedgerState) (rid : Nat) (items : List (Nat × ℚ))
    (payee : String) (phone : Option String) (r : PaymentReceipt)
    (hr : findReceipt st rid = some r) :
    (r.ocr_status = OCR_STATUS_VERIFIED →
      verify_payment st rid items = (st, .alreadyVerified)
      ∧ batch_verify_by_payee st payee rid phone = (st, .alreadyVerified))
    ∧ (r.ocr_status ≠ OCR_STATUS_VERIFIED →
      (verify_payment st rid items).2.isOk = true
      ∧ (verify_payment st rid items).2 ≠ VerifyResult.alreadyVerified
      ∧ (batch_verify_by_payee st payee rid phone).2 ≠ BatchResult.alreadyVerified) := by
  constructor
  · intro h
    constructor
    · simp only [verify_payment, hr, if_pos h]
    · simp only [batch_verify_by_payee, hr, if_pos h]
  · intro h
    refine ⟨?_, ?_, ?_⟩
    · simp only [verify_payment, hr, if_neg h]
      rfl
    · simp only [verify_payment, hr, if_neg h]
      intro hfalse
      exact VerifyResult.noConfusion hfalse
    · by_cases hcand : batchCandidates st payee phone = []
      · simp only [batch_verify_by_payee, hr, if_neg h, if_pos hcand]
        intro hfalse
        exact BatchResult.noConfusion hfalse
      · simp only [batch_verify_by_payee, hr, if_neg h, if_neg hcand]
        intro hfalse
        exact BatchResult.noConfusion hfalse

theorem c7_already_settled_witness :
    findReceipt stA 1 = some ⟨1, 100, OCR_STATUS_CONFIRMED⟩
    ∧ (((⟨1, (100:ℚ), OCR_STATUS_CONFIRMED⟩ : PaymentReceipt).ocr_status = OCR_STATUS_VERIFIED →
        verify_payment stA 1 [(1, 30)] = (stA, .alreadyVerified)
        ∧ batch_verify_by_payee stA "zhang" 1 none = (stA, .alreadyVerified))
      ∧ ((⟨1, (100:ℚ), OCR_STATUS_CONFIRMED⟩ : PaymentReceipt).ocr_status ≠ OCR_STATUS_VERIFIED →
        (verify_payment stA 1 [(1, 30)]).2.isOk = true
        ∧ (verify_payment stA 1 [(1, 30)]).2 ≠ VerifyResult.alreadyVerified
        ∧ (batch_verify_by_payee stA "zhang" 1 none).2 ≠ BatchResult.alreadyVerified)) := by
  have h1 : findReceipt stA 1 = some ⟨1, 100, OCR_STATUS_CONFIRMED⟩ := rfl
  exact ⟨h1, c7_already_settled stA 1 [(1, 30)] "zhang" none _ h1⟩

/-! ### C6 -/

lemma verify_payment_ok_elim {st st1 : LedgerState} {rid : Nat} {items : List (Nat × ℚ)}
    {tot : ℚ} {rs : Nat} {its : List SettledItem}
    (h : verify_payment st rid items = (st1, .ok tot rs its)) :
    ∃ r, findReceipt st rid = some r ∧ r.ocr_status ≠ OCR_STATUS_VERIFIED
      ∧ st1.receipts = setReceiptRows rid rs st.receipts := by
  cases hfr : findReceipt st rid with
  | none =>
      simp only [verify_payment, hfr, Prod.mk.injEq] at h
      exact absurd h.2 (by simp)
  | some r =>
      by_cases hstat : r.ocr_status = OCR_STATUS_VERIFIED
      · simp only [verify_payment, hfr, if_pos hstat, Prod.mk.injEq] at h
        exact absurd h.2 (by simp)
      · refine ⟨r, rfl, hstat, ?_⟩
        simp only [verify_payment, hfr, if_neg hstat, Prod.mk.injEq,
          VerifyResult.ok.injEq] at h
        obtain ⟨h1, _, hrs, _⟩ := h
        have hrec : st1.receipts
            = setReceiptRows rid
                (if (verifyLoop rid st 0 [] items).2.1 ≥ r.amount then OCR_STATUS_VERIFIED
                 else OCR_STATUS_CONFIRMED)
                (verifyLoop rid st 0 [] items).1.receipts := by
          rw [← h1]
        rw [hrec, verifyLoop_receipts, hrs]

/-- C6, counterexample: submitting the identical explicit settlement call twice
    is not always a no-op.  On an obligation with payable 300 and a receipt of
    300, submitting the pair (obligation, 100) twice yields
    `paid_amount = 200`, not the 100 that a single submission yields — the
    first call leaves the receipt CONFIRMED, so the second call is accepted
    and re-applies the amount instead of clamping to zero. -/
theorem c6_counterexample :
    (verify_payment (verify_payment stB 1 [(1, 100)]).1 1 [(1, 100)]).1
      ≠ (verify_payment stB 1 [(1, 100)]).1 := by
  norm_num [verify_payment, findReceipt, findReceiptRow, verifyLoop, findBalance,
    findBalanceRow, verifyStep, verifySettle, verifyStatus, updateBalanceRows, upsertLink,
    hasLink, replaceLink, setReceiptRows, stB, obB, OCR_STATUS_VERIFIED, OCR_STATUS_CONFIRMED,
    PAY_STATUS_PENDING, PAY_STATUS_PARTIAL, PAY_STATUS_SETTLED]

/-- C6, amended: resubmitting the identical explicit settlement call is a
    no-op provided the first call promoted the receipt to VERIFIED (its
    accumulated total reached the receipt amount): the second call is then
    rejected as already settled, so the state after two calls equals the
    state after one.  Without that proviso idempotence can fail — the second
    call may be accepted and re-apply the pairs (see the counterexample). -/
theorem c6_idempotent_once_settled (st st1 : LedgerState) (rid : Nat)
    (items : List (Nat × ℚ)) (tot : ℚ) (its : List SettledItem)
    (h : verify_payment st rid items = (st1, .ok tot OCR_STATUS_VERIFIED its)) :
    verify_payment st1 rid items = (st1, .alreadyVerified) := by
  obtain ⟨r, hfr, _, hrec⟩ := verify_payment_ok_elim h
  have hfr2 : findReceiptRow st.receipts rid = some r := hfr
  have hfind : findReceipt st1 rid = some { r with ocr_status := OCR_STATUS_VERIFIED } := by
    unfold findReceipt
    rw [hrec, findReceiptRow_setReceiptRows, hfr2]
    rfl
  simp [verify_payment, hfind]

theorem c6_idempotent_once_settled_witness :
    verify_payment stA 1 [(1, 100)]
      = (⟨[⟨1, "zhang", "p1", 100, 100, 0, PAY_STATUS_SETTLED, 1⟩],
          [⟨1, 100, OCR_STATUS_VERIFIED⟩], [⟨1, 1, 100⟩]⟩,
         .ok 100 OCR_STATUS_VERIFIED [⟨1, 100, PAY_STATUS_SETTLED⟩])
    ∧ verify_payment (⟨[⟨1, "zhang", "p1", 100, 100, 0, PAY_STATUS_SETTLED, 1⟩],
          [⟨1, 100, OCR_STATUS_VERIFIED⟩], [⟨1, 1, 100⟩]⟩ : LedgerState) 1 [(1, 100)]
      = (⟨[⟨1, "zhang", "p1", 100, 100, 0, PAY_STATUS_SETTLED, 1⟩],
          [⟨1, 100, OCR_STATUS_VERIFIED⟩], [⟨1, 1, 100⟩]⟩, .alreadyVerified) := by
  have h : verify_payment stA 1 [(1, 100)]
      = (⟨[⟨1, "zhang", "p1", 100, 100, 0, PAY_STATUS_SETTLED, 1⟩],
          [⟨1, 100, OCR_STATUS_VERIFIED⟩], [⟨1, 1, 100⟩]⟩,
         .ok 100 OCR_STATUS_VERIFIED [⟨1, 100, PAY_STATUS_SETTLED⟩]) := by
    norm_num [verify_payment, findReceipt, findReceiptRow, verifyLoop, findBalance,
      findBalanceRow, verifyStep, verifySettle, verifyStatus, updateBalanceRows, upsertLink,
      hasLink, setReceiptRows, stA, obA, OCR_STATUS_VERIFIED, OCR_STATUS_CONFIRMED,
      PAY_STATUS_PENDING, PAY_STATUS_PARTIAL, PAY_STATUS_SETTLED]
  exact ⟨h, c6_idempotent_once_settled stA _ 1 [(1, 100)] 100 [⟨1, 100, PAY_STATUS_SETTLED⟩] h⟩

/-! ### C5 -/

/-- C5, counterexample: `paid_amount` does not stay equal to the sum of
    `settled_amount` over the obligation's links.  Settling the same
    (receipt, obligation) pair twice with 100 each accumulates
    `paid_amount = 200`, while the link upsert replaces the pair's amount, so
    the links referencing the obligation sum to 100. -/
theorem c5_counterexample :
    ((verify_payment (verify_payment stB 1 [(1, 100)]).1 1 [(1, 100)]).1.balances.map
        (fun b => b.paid_amount) = [(200:ℚ)])
    ∧ linkSum 1 (verify_payment (verify_payment stB 1 [(1, 100)]).1 1 [(1, 100)]).1.links
        = 100
    ∧ ((200:ℚ) ≠ 100) := by
  refine ⟨?_, ?_, by norm_num⟩ <;>
    norm_num [verify_payment, findReceipt, findReceiptRow, verifyLoop, findBalance,
      findBalanceRow, verifyStep, verifySettle, verifyStatus, updateBalanceRows, upsertLink,
      hasLink, replaceLink, setReceiptRows, linkSum, stB, obB, OCR_STATUS_VERIFIED,
      OCR_STATUS_CONFIRMED, PAY_STATUS_PENDING, PAY_STATUS_PARTIAL, PAY_STATUS_SETTLED]

/-- C5, amended: for a well-formed ledger in which the invariant holds, after a
    settlement operation `paid_amount` still equals the sum of `settled_amount`
    over all links referencing the obligation, provided the call settles no
    (receipt, obligation) pair that already has a link (and, for the explicit
    call, lists no obligation twice): because the link upsert replaces the
    pair's amount while `paid_amount` accumulates, re-settling an existing
    pair breaks the equality (see the counterexample). -/
theorem c5_paid_equals_links (st : LedgerState) (rid : Nat)
    (hpl : PaidLinkInv st) (hids : UniqueIds st) :
    (∀ items, (items.map Prod.fst).Nodup →
        (∀ p ∈ items, hasLink rid p.1 st.links = false) →
        PaidLinkInv (verify_payment st rid items).1)
    ∧ (∀ payee phone, (∀ b ∈ st.balances, hasLink rid b.id st.links = false) →
        PaidLinkInv (batch_verify_by_payee st payee rid phone).1) :=
  ⟨fun items hnd hf => verify_payment_paidlink rid items hpl hids hnd hf,
   fun payee phone hf => batch_verify_by_payee_paidlink payee rid phone hpl hids hf⟩

theorem c5_paid_equals_links_witness :
    PaidLinkInv stA ∧ UniqueIds stA
    ∧ ((∀ items, (items.map Prod.fst).Nodup →
          (∀ p ∈ items, hasLink 1 p.1 stA.links = false) →
          PaidLinkInv (verify_payment stA 1 items).1)
      ∧ (∀ payee phone, (∀ b ∈ stA.balances, hasLink 1 b.id stA.links = false) →
          PaidLinkInv (batch_verify_by_payee stA payee 1 phone).1)) := by
  have h1 : PaidLinkInv stA := by
    intro b hb
    simp only [stA, List.mem_singleton] at hb
    subst hb
    norm_num [obA, stA, linkSum]
  have h2 : UniqueIds stA := by
    simp [UniqueIds, stA]
  exact ⟨h1, h2, c5_paid_equals_links stA 1 h1 h2⟩

/-! ### C4 -/

/-- C4: the candidate list of automatic allocation is ordered by ascending
    creation time, and allocation is FIFO: with two outstanding candidates
    `b1` (older) before `b2` (newer) and a receipt smaller than the sum of
    their balances, nothing is allocated to `b2` unless `b1` received exactly
    its whole remaining balance `min(balance, remaining) = balance_amount` and
    was thereby fully satisfied (status SETTLED). -/
theorem c4_fifo_oldest_first (st : LedgerState) (payee : String) (rid : Nat)
    (phone : Option String) (r : PaymentReceipt) (b1 b2 : BalanceDetail)
    (hr : findReceipt st rid = some r)
    (hstat : r.ocr_status ≠ OCR_STATUS_VERIFIED)
    (hcands : batchCandidates st payee phone = [b1, b2])
    (hne : b1.id ≠ b2.id)
    (hbal1 : b1.balance_amount = b1.payable_amount - b1.paid_amount)
    (hsum : r.amount < b1.balance_amount + b2.balance_amount) :
    List.Pairwise createdLe (batchCandidates st payee phone)
    ∧ ∀ it2 ∈ (batch_verify_by_payee st payee rid phone).2.items,
        it2.balance_id = b2.id → 0 < it2.settled_amount →
          ∃ it1 ∈ (batch_verify_by_payee st payee rid phone).2.items,
            it1.balance_id = b1.id ∧ it1.settled_amount = b1.balance_amount
              ∧ it1.status = PAY_STATUS_SETTLED := by
  constructor
  · exact List.sorted_insertionSort createdLe _
  · have hitems : (batch_verify_by_payee st payee rid phone).2.items
        = (batchAlloc rid st r.amount [] [b1, b2]).2.2 := by
      simp only [batch_verify_by_payee, hr, if_neg hstat, hcands]
      rw [if_neg (List.cons_ne_nil b1 [b2])]
      rfl
    rw [hitems]
    by_cases h0 : r.amount ≤ 0
    · simp only [batchAlloc, if_pos h0]
      intro it2 hit2
      simp at hit2
    · by_cases h1 : r.amount - min b1.balance_amount r.amount ≤ 0
      · simp only [batchAlloc, if_neg h0, if_pos h1, List.nil_append]
        intro it2 hit2 hid2 _
        simp only [List.mem_singleton] at hit2
        subst hit2
        exact absurd hid2 hne
      · simp only [batchAlloc, if_neg h0, if_neg h1, List.nil_append, List.cons_append]
        have hs1 : min b1.balance_amount r.amount = b1.balance_amount := by
          rcases le_total b1.balance_amount r.amount with hle | hle
          · exact min_eq_left hle
          · exfalso
            apply h1
            rw [min_eq_right hle, sub_self]
        intro it2 hit2 hid2 _
        rcases List.mem_cons.1 hit2 with heq | hmem
        · subst heq
          exact absurd hid2 hne
        · refine ⟨_, List.mem_cons_self _ _, rfl, hs1, ?_⟩
          show batchStatus b1.payable_amount (b1.paid_amount + min b1.balance_amount r.amount)
              = PAY_STATUS_SETTLED
          rw [hs1, hbal1]
          unfold batchStatus
          rw [if_pos (by linarith)]

/-- Older outstanding obligation of payee "zhang": payable 1000, created at 1. -/
def ob1 : BalanceDetail :=
  { id := 1, driver_name := "zhang", driver_phone := "p1",
    payable_amount := 1000, paid_amount := 0, balance_amount := 1000,
    payment_status := PAY_STATUS_PENDING, created_at := 1 }

/-- Newer outstanding obligation of payee "zhang": payable 2000, created at 2. -/
def ob2 : BalanceDetail :=
  { id := 2, driver_name := "zhang", driver_phone := "p1",
    payable_amount := 2000, paid_amount := 0, balance_amount := 2000,
    payment_status := PAY_STATUS_PENDING, created_at := 2 }

/-- Ledger with the two obligations of "zhang" and a CONFIRMED receipt of 2500. -/
def st4 : LedgerState :=
  { balances := [ob1, ob2],
    receipts := [{ id := 1, amount := 2500, ocr_status := OCR_STATUS_CONFIRMED }],
    links := [] }

theorem c4_fifo_oldest_first_witness :
    findReceipt st4 1 = some ⟨1, 2500, OCR_STATUS_CONFIRMED⟩
    ∧ (⟨1, (2500:ℚ), OCR_STATUS_CONFIRMED⟩ : PaymentReceipt).ocr_status ≠ OCR_STATUS_VERIFIED
    ∧ batchCandidates st4 "zhang" none = [ob1, ob2]
    ∧ ob1.id ≠ ob2.id
    ∧ ob1.balance_amount = ob1.payable_amount - ob1.paid_amount
    ∧ (⟨1, (2500:ℚ), OCR_STATUS_CONFIRMED⟩ : PaymentReceipt).amount
        < ob1.balance_amount + ob2.balance_amount
    ∧ (List.Pairwise createdLe (batchCandidates st4 "zhang" none)
      ∧ ∀ it2 ∈ (batch_verify_by_payee st4 "zhang" 1 none).2.items,
          it2.balance_id = ob2.id → 0 < it2.settled_amount →
            ∃ it1 ∈ (batch_verify_by_payee st4 "zhang" 1 none).2.items,
              it1.balance_id = ob1.id ∧ it1.settled_amount = ob1.balance_amount
                ∧ it1.status = PAY_STATUS_SETTLED) := by
  have h1 : findReceipt st4 1 = some ⟨1, 2500, OCR_STATUS_CONFIRMED⟩ := rfl
  have h2 : (⟨1, (2500:ℚ), OCR_STATUS_CONFIRMED⟩ : PaymentReceipt).ocr_status
      ≠ OCR_STATUS_VERIFIED := by decide
  have h3 : batchCandidates st4 "zhang" none = [ob1, ob2] := by
    norm_num [batchCandidates, outstandingFor, phoneMatches, createdLe, List.insertionSort,
      List.orderedInsert, st4, ob1, ob2, PAY_STATUS_PENDING, PAY_STATUS_PARTIAL]
  have h4 : ob1.id ≠ ob2.id := by decide
  have h5 : ob1.balance_amount = ob1.payable_amount - ob1.paid_amount := by norm_num [ob1]
  have h6 : (⟨1, (2500:ℚ), OCR_STATUS_CONFIRMED⟩ : PaymentReceipt).amount
      < ob1.balance_amount + ob2.balance_amount := by norm_num [ob1, ob2]
  exact ⟨h1, h2, h3, h4, h5, h6,
    c4_fifo_oldest_first st4 "zhang" 1 none _ ob1 ob2 h1 h2 h3 h4 h5 h6⟩

end PD
